import Mathlib

/-!
Verification of the chunk-to-document reconciliation and citation subsystem
of the mtr-chatbot repository.

Documents and fragment contents are modelled as lists of characters
(`Str`), matching the Python view of a `str` as a sequence of code points.
The embedded functions follow, line by line:

* `src/frontend/chunk_viewer_app.py` — `DatabaseChunkViewer._find_chunk_position`,
  `DatabaseChunkViewer.map_chunks_to_document`,
  `DatabaseChunkViewer.get_highlighted_document`;
* `src/backend/backend.py` — the citation-number assignment inside
  `get_knowledge`, `create_citation_context`, `build_prompt_with_citations`,
  `extract_citations_from_response`.

Match scores (Python floats that only ever carry the constants 0.0, 0.6,
0.8, 1.0 and are never computed with) are modelled as rationals.
String slicing is modelled for nonnegative bounds, the only values the
embedded code paths produce for valid (non-sentinel) mappings.
-/

/-- A Python string as its sequence of characters. -/
abbrev Str := List Char

/-- Character list of a Lean string literal. -/
def str (s : String) : Str := s.data

/-- Python whitespace test (the default character set of `str.strip`):
space, tab, newline, carriage return, vertical tab, form feed. -/
def pyIsSpace (c : Char) : Bool :=
  c = ' ' || c = '\t' || c = '\n' || c = '\r' || c = '\x0b' || c = '\x0c'

/-- Python `str.strip()`: drop leading and trailing whitespace. -/
def pyStrip (s : Str) : Str :=
  ((s.dropWhile pyIsSpace).reverse.dropWhile pyIsSpace).reverse

/-- Python `hay.find(needle)`: index of the earliest occurrence of
`needle` in `hay`, `none` for the Python result `-1`. -/
def pyFind (hay needle : Str) : Option Nat :=
  if needle.isPrefixOf hay then some 0
  else
    match hay with
    | [] => none
    | _ :: t => (pyFind t needle).map (· + 1)

/-- Python `hay.find(needle, start)`: earliest occurrence at index
`start` or later (absolute index); `-1`/`none` when `start` exceeds the
length of `hay`. -/
def pyFindFrom (hay needle : Str) (start : Nat) : Option Nat :=
  if hay.length < start then none
  else (pyFind (hay.drop start) needle).map (· + start)

/-- Python `s.split('\n')`: split on every newline, keeping empty pieces
(so the result is never the empty list). -/
def pySplitNl : Str → List Str
  | [] => [[]]
  | c :: t =>
    if c = '\n' then [] :: pySplitNl t
    else
      match pySplitNl t with
      | [] => [[c]]
      | h :: r => (c :: h) :: r

/-- Python `s[a:b]` for `0 ≤ a` (the clamping behaviour of slices;
negative from-the-end indices do not occur on the embedded code paths). -/
def islice (s : Str) (a b : Int) : Str :=
  (s.drop a.toNat).take (b.toNat - a.toNat)

/-- Structure `StoredChunk` of `src/frontend/chunk_viewer_app.py` (the `metadata`
dict itself is not read by any embedded function, so only the fields the
viewer copies out of it are kept). -/
structure SChunk where
  content : Str
  chunk_id : Str
  page_idx : Int
  chunk_type : Str
  summary : Str
  path : Str
deriving DecidableEq

/-- Structure `ChunkMapping` of `src/frontend/chunk_viewer_app.py`: a stored chunk
with its located span (`-1`/`-1` is the unpositioned sentinel). -/
structure ChunkMapping where
  stored_chunk : SChunk
  start_pos : Int
  end_pos : Int
  match_score : Rat
deriving DecidableEq

/-- The fuzzy (first line / last line bracketing) stage of
`_find_chunk_position`: requires at least two lines, locates the trimmed
first line, then the trimmed last line starting after it. -/
def fuzzyMatch (doc c : Str) : Option (Nat × Nat) :=
  let lines := pySplitNl c
  if 2 ≤ lines.length then
    let first_line := pyStrip lines.headI
    let last_line := pyStrip (lines.getLastD [])
    match pyFind doc first_line with
    | none => none
    | some first_pos =>
      match pyFindFrom doc last_line (first_pos + first_line.length) with
      | none => none
      | some last_pos => some (first_pos, last_pos + last_line.length)
  else none

/-- The 50-character-prefix stage of `_find_chunk_position`: the needle
is `chunk_content[:50].strip()`; the estimated end is clamped to the
document length. -/
def prefixMatch (doc c : Str) : Option (Nat × Nat) :=
  let p := pyStrip (c.take 50)
  if p = [] then none
  else
    match pyFind doc p with
    | none => none
    | some pos => some (pos, min (pos + c.length) doc.length)

/-- Method `DatabaseChunkViewer._find_chunk_position`: exact match (score 1.0),
then first/last-line bracketing (0.8), then 50-character prefix (0.6),
then the unmatched sentinel (0.0). -/
def find_chunk_position (doc : Str) (chunk : SChunk) : ChunkMapping :=
  let c := pyStrip chunk.content
  match pyFind doc c with
  | some start_pos => ⟨chunk, start_pos, (start_pos : Int) + c.length, 1⟩
  | none =>
    match fuzzyMatch doc c with
    | some (a, b) => ⟨chunk, a, b, mkRat 8 10⟩
    | none =>
      match prefixMatch doc c with
      | some (a, b) => ⟨chunk, a, b, mkRat 6 10⟩
      | none => ⟨chunk, -1, -1, 0⟩

/-- The mapping `map_chunks_to_document` gives every non-text chunk:
matched (score 1.0) but unpositioned (start/end `-1`). -/
def nontextMapping (c : SChunk) : ChunkMapping := ⟨c, -1, -1, 1⟩

/-- Method `DatabaseChunkViewer.map_chunks_to_document`: empty document or
empty chunk list yields no mappings; otherwise text chunks go through
`find_chunk_position` and everything else gets `nontextMapping`. -/
def map_chunks_to_document (doc : Str) (chunks : List SChunk) : List ChunkMapping :=
  if doc = [] ∨ chunks = [] then []
  else
    chunks.map fun c =>
      if c.chunk_type = str ("text") then find_chunk_position doc c
      else nontextMapping c

/-- One entry of the `segments` list built by `get_highlighted_document`:
either plain text between chunks or a rendered chunk. -/
inductive Segment where
  | text (content : Str) (start stop : Int)
  | chunk (content : Str) (start stop : Int) (chunk_index : Nat) (chunk_id : Str)
      (chunk_type : Str) (page_idx : Int) (match_score : Rat)
deriving DecidableEq

/-- The walk of `get_highlighted_document` over the sorted valid
mappings: `i` is the running chunk index and `last_end` the end of the
previously emitted chunk segment. -/
def buildSegments (doc : Str) : List ChunkMapping → Nat → Int → List Segment
  | [], _, last_end =>
    if last_end < (doc.length : Int) then
      [Segment.text (islice doc last_end doc.length) last_end doc.length]
    else []
  | m :: rest, i, last_end =>
    (if last_end < m.start_pos then
      [Segment.text (islice doc last_end m.start_pos) last_end m.start_pos]
    else []) ++
    Segment.chunk (islice doc m.start_pos m.end_pos) m.start_pos m.end_pos i
      m.stored_chunk.chunk_id m.stored_chunk.chunk_type m.stored_chunk.page_idx
      m.match_score ::
    buildSegments doc rest (i + 1) m.end_pos

/-- Method `DatabaseChunkViewer.get_highlighted_document` (the `segments` list of
its result): filter to mappings with a valid start, sort ascending by
start position, then walk the document. The Python `sorted` builtin is a stable
sort; it is modelled by the stable structural `List.insertionSort`. -/
def get_highlighted_document (doc : Str) (mappings : List ChunkMapping) : List Segment :=
  if mappings = [] ∨ doc = [] then []
  else
    let valid := mappings.filter fun m => decide (0 ≤ m.start_pos)
    buildSegments doc (List.insertionSort (fun a b => a.start_pos ≤ b.start_pos) valid) 0 0


/-- The metadata dict attached to a retrieved fragment, restricted to the
keys the embedded functions read (`filename`, `page_idx`, `type`); a
missing key is `none` and every read goes through a Python
`dict.get(key, default)`. -/
structure MetaDict where
  filename : Option Str
  page_idx : Option Int
  mtype : Option Str
deriving DecidableEq

/-- A text chunk dict as built by `get_knowledge`
(`content` / `metadata` / `chunk_id` / `citation_num`). -/
structure TextChunk where
  content : Str
  metadata : MetaDict
  chunk_id : Str
  citation_num : Int
deriving DecidableEq

/-- An image chunk dict as built by `get_knowledge`
(`metadata` / `chunk_id` / `citation_num`; no `content` key). -/
structure ImageChunk where
  metadata : MetaDict
  chunk_id : Str
  citation_num : Int
deriving DecidableEq

/-- Decimal digits of a natural number. -/
def natStr (n : Nat) : Str := Nat.toDigits 10 n

/-- Python `str(n)` for an integer. -/
def intStr (n : Int) : Str := if n < 0 then '-' :: natStr n.natAbs else natStr n.toNat

/-- Python `meta.get("filename", "unknown")`. -/
def metaFilename (m : MetaDict) : Str := m.filename.getD (str ("unknown"))

/-- Python `meta.get("page_idx", "?")` as it is interpolated into an f-string. -/
def pageStr (p : Option Int) : Str :=
  match p with
  | some n => intStr n
  | none => str ("?")

/-- One iteration of the text-chunk loop of `get_knowledge` at index `i`:
defensive indexing into the metadata and id lists, citation number `i + 1`. -/
def mkTextChunk (metas : List MetaDict) (ids : List Str) (i : Nat) (doc : Str) : TextChunk :=
  { content := doc
    metadata := metas.getD i ⟨none, none, none⟩
    chunk_id := ids.getD i (str ("unknown_") ++ natStr i)
    citation_num := (i : Int) + 1 }

/-- The text-chunk loop of `get_knowledge`, starting at index `i`. -/
def buildTextChunks (metas : List MetaDict) (ids : List Str) : Nat → List Str → List TextChunk
  | _, [] => []
  | i, d :: ds => mkTextChunk metas ids i d :: buildTextChunks metas ids (i + 1) ds

/-- One iteration of the image-chunk loop of `get_knowledge` at index `i`,
with `n` text chunks already numbered: citation number `n + i + 1`. -/
def mkImageChunk (ids : List Str) (n i : Nat) (meta : MetaDict) : ImageChunk :=
  { metadata := meta
    chunk_id := ids.getD i (str ("img_unknown_") ++ natStr i)
    citation_num := (n : Int) + i + 1 }

/-- The image-chunk loop of `get_knowledge`, starting at index `i`. -/
def buildImageChunks (ids : List Str) (n : Nat) : Nat → List MetaDict → List ImageChunk
  | _, [] => []
  | i, m :: ms => mkImageChunk ids n i m :: buildImageChunks ids n (i + 1) ms

/-- The pure tail of `get_knowledge` after the two database queries: if
the text query returned no documents the function returns two empty
lists; otherwise text chunks are numbered `1..N` and image chunks
`N+1..N+M`, both in input order. -/
def assignCitations (tdocs : List Str) (tmetas : List MetaDict) (tids : List Str)
    (imetas : List MetaDict) (iids : List Str) : List TextChunk × List ImageChunk :=
  if tdocs = [] then ([], [])
  else
    let t := buildTextChunks tmetas tids 0 tdocs
    (t, buildImageChunks iids t.length 0 imetas)

/-- Python `str.capitalize()`: first character uppercased, the rest
lowercased (ASCII suffices for the `type` strings the code stores). -/
def pyCapitalize : Str → Str
  | [] => []
  | c :: r => c.toUpper :: r.map Char.toLower

/-- Python `sep.join(parts)`. -/
def pyJoin (sep : Str) : List Str → Str
  | [] => []
  | [x] => x
  | x :: y :: r => x ++ sep ++ pyJoin sep (y :: r)

/-- The block `create_citation_context` renders for one text chunk:
`[{n}] (from {filename}, page {page}):\n{content}`. -/
def textPart (c : TextChunk) : Str :=
  str ("[") ++ intStr c.citation_num ++ str ("] (from ") ++ metaFilename c.metadata ++
    str (", page ") ++ pageStr c.metadata.page_idx ++ str ("):\n") ++ c.content

/-- The block `create_citation_context` renders for one image chunk:
`[Source {n}: {filename}, page {page}]\n{Type} available for reference.`. -/
def imagePart (c : ImageChunk) : Str :=
  str ("[Source ") ++ intStr c.citation_num ++ str (": ") ++ metaFilename c.metadata ++
    str (", page ") ++ pageStr c.metadata.page_idx ++ str ("]\n") ++
    pyCapitalize (c.metadata.mtype.getD (str ("image"))) ++ str (" available for reference.")

/-- Function `create_citation_context`: the per-chunk blocks (text chunks first,
then image chunks) joined with `\n\n---\n\n`. -/
def create_citation_context (txt : List TextChunk) (img : List ImageChunk) : Str :=
  pyJoin (str ("\n\n---\n\n")) (txt.map textPart ++ img.map imagePart)

/-- Template text of `build_prompt_with_citations` before the citation
context. -/
def promptPre : Str :=
  str ("Answer the following question based on the provided reference sources.\n\nReference sources available:\n")

/-- Template text of `build_prompt_with_citations` between the citation
context and the question. -/
def promptMid : Str := str ("\n\nQuestion: ")

/-- Template text of `build_prompt_with_citations` after the question. -/
def promptPost : Str :=
  str ("\n\nCRITICAL INSTRUCTION FOR YOUR ANSWER:\nWhen you write your answer, you MUST add citation numbers [1], [2], [3] at the END of each sentence that uses information from the sources above.\n\nExample answer format:\n\"This is a fact from the document [1]. Here is another relevant detail [2].\"\n\nYou can think through the problem, but when you provide your final answer, EVERY relevant sentence must end with a citation like [1], [2], etc.\n\nNow provide your answer with proper citations:")

/-- Function `build_prompt_with_citations`: returns the composed prompt and the
citation context it embeds. -/
def build_prompt_with_citations (question : Str) (txt : List TextChunk)
    (img : List ImageChunk) : Str × Str :=
  let ctx := create_citation_context txt img
  (promptPre ++ ctx ++ promptMid ++ question ++ promptPost, ctx)

/-- Python `int()` of a nonempty digit string. -/
def natOfDigits (ds : Str) : Nat := ds.foldl (fun a c => 10 * a + (c.toNat - 48)) 0

/-- Python regex findall of the citation pattern — an opening bracket,
one or more digits, a closing bracket — with each captured digit group
read as an integer. Scanning character by character is equivalent to the
jump the regex engine makes past each match, because the pattern holds
no nested opening bracket, so matches can never overlap. -/
def findall : Str → List Int
  | [] => []
  | c :: t =>
    if c = '[' then
      match t.takeWhile Char.isDigit, t.dropWhile Char.isDigit with
      | [], _ => findall t
      | _ :: _, [] => findall t
      | ds, e :: _ =>
        if e = ']' then (natOfDigits ds : Int) :: findall t else findall t
    else findall t

/-- The CitationRecord dict built by `extract_citations_from_response`. -/
structure CitationRecord where
  num : Int
  rtype : Str
  filename : Str
  page_idx : Int
  chunk_id : Str
  preview : Str
deriving DecidableEq

/-- The record `extract_citations_from_response` emits for a cited text
chunk (preview: first 200 characters of content). -/
def textRecord (c : TextChunk) : CitationRecord :=
  { num := c.citation_num
    rtype := str ("text")
    filename := metaFilename c.metadata
    page_idx := c.metadata.page_idx.getD 0
    chunk_id := c.chunk_id
    preview := c.content.take 200 }

/-- The record `extract_citations_from_response` emits for a cited image
chunk (preview: `{type} on page {page_idx}`). -/
def imageRecord (c : ImageChunk) : CitationRecord :=
  { num := c.citation_num
    rtype := c.metadata.mtype.getD (str ("image"))
    filename := metaFilename c.metadata
    page_idx := c.metadata.page_idx.getD 0
    chunk_id := c.chunk_id
    preview := c.metadata.mtype.getD (str ("image")) ++ str (" on page ") ++
      pageStr c.metadata.page_idx }

/-- Function `extract_citations_from_response`: collect the set of bracketed
numbers in the response, keep each fragment whose `citation_num` is in
that set (text chunks first, then image chunks), and sort the records
ascending by `num`. The stable Python `list.sort` is modelled by the
stable structural `List.insertionSort`. -/
def extract_citations_from_response (response : Str) (txt : List TextChunk)
    (img : List ImageChunk) : List CitationRecord :=
  let cited := findall response
  let recs :=
    (txt.filter fun c => cited.contains c.citation_num).map textRecord ++
    (img.filter fun c => cited.contains c.citation_num).map imageRecord
  List.insertionSort (fun a b => a.num ≤ b.num) recs


/-! Concrete inputs used by the counterexamples and witnesses below. -/

/-- The content of a text (chunk) segment, or of a plain-text segment. -/
def segContent : Segment → Str
  | .text c _ _ => c
  | .chunk c _ _ _ _ _ _ _ => c

/-- The overlap test vector of the specification: document `ABCDEFGHIJ`. -/
def docC1 : Str := str ("ABCDEFGHIJ")

/-- A stored text chunk used to carry the span `[2,5)`. -/
def chunkA : SChunk := ⟨str ("CDE"), str ("c1"), 1, str ("text"), [], []⟩

/-- A stored text chunk used to carry the span `[4,7)`. -/
def chunkB : SChunk := ⟨str ("EFG"), str ("c2"), 1, str ("text"), [], []⟩

/-- Mapping with span `[2,5)`, score 1.0. -/
def mapA : ChunkMapping := ⟨chunkA, 2, 5, 1⟩

/-- Mapping with span `[4,7)`, score 1.0. -/
def mapB : ChunkMapping := ⟨chunkB, 4, 7, 1⟩

/-- Metadata `{filename: "doc1", page_idx: 3, type: "text"}`. -/
def tmetaD : MetaDict := ⟨some (str ("doc1")), some 3, some (str ("text"))⟩

/-- Text chunk numbered 1. -/
def tchunk1 : TextChunk := ⟨str ("one"), tmetaD, str ("t1"), 1⟩

/-- Text chunk numbered 2. -/
def tchunk2 : TextChunk := ⟨str ("two"), tmetaD, str ("t2"), 2⟩

/-- Text chunk numbered 3. -/
def tchunk3 : TextChunk := ⟨str ("three"), tmetaD, str ("t3"), 3⟩

/-- Image chunk numbered 1, with empty metadata (all defaults apply). -/
def ichunk1 : ImageChunk := ⟨⟨none, none, none⟩, str ("i1"), 1⟩

/-- Image chunk numbered 4, with empty metadata. -/
def ichunk4 : ImageChunk := ⟨⟨none, none, none⟩, str ("i4"), 4⟩

/-- A text chunk whose content is 501 characters long — past the
500-character preview cap the specification describes. -/
def longChunk : TextChunk := ⟨List.replicate 501 'a', ⟨none, none, none⟩, str ("tl"), 1⟩

/-- Document for the prefix-match counterexample: `Z`, 49 `a`s, `Z`,
49 `a`s, one space (length 101). It contains the stripped needle
(49 `a`s) earliest at index 1, but the raw first 50 characters of the
fragment (49 `a`s and a space) earliest at index 51. -/
def c7doc : Str := str ("Z") ++ List.replicate 49 'a' ++ str ("Z") ++ List.replicate 49 'a' ++ str (" ")

/-- Fragment for the prefix-match counterexample: 49 `a`s, a space, five
`b`s (55 characters, already trimmed; not a substring of `c7doc`). -/
def c7chunk : SChunk :=
  ⟨List.replicate 49 'a' ++ str (" ") ++ List.replicate 5 'b', str ("id7"), 0, str ("text"), [], []⟩

/-- Document of the witness for the prefix-match stage: 50 `X`s. -/
def c7wdoc : Str := List.replicate 50 'X'

/-- Fragment of the witness for the prefix-match stage: 60 `X`s (its
50-character prefix occurs at index 0 of `c7wdoc`, the whole content
does not occur). -/
def c7wchunk : SChunk := ⟨List.replicate 60 'X', str ("id8"), 0, str ("text"), [], []⟩

/-- Document of the exact-match scenario from the specification. -/
def c4doc : Str := str ("Intro.\nThe sky is blue.\nMore text.")

/-- Fragment of the exact-match scenario from the specification. -/
def c4chunk : SChunk := ⟨str ("The sky is blue."), str ("id4"), 0, str ("text"), [], []⟩

/-- A whitespace-only text chunk. -/
def wsChunk : SChunk := ⟨str ("  \n "), str ("id10"), 0, str ("text"), [], []⟩

/-- A non-text (image) stored chunk. -/
def imgSChunk : SChunk := ⟨[], str ("img1"), 2, str ("image"), [], []⟩

/-! Supporting lemmas about the string primitives. -/

/-- A successful `pyFind` really is the earliest match: the needle is a
prefix of the haystack dropped at the returned index and at no earlier
index. -/
theorem pyFind_spec {hay needle : Str} {i : Nat} (h : pyFind hay needle = some i) :
    needle <+: hay.drop i ∧ ∀ j, j < i → ¬ needle <+: hay.drop j := by
  induction hay generalizing i with
  | nil =>
    rw [pyFind] at h
    by_cases hp : needle.isPrefixOf ([] : Str)
    · rw [if_pos hp] at h
      injection h with h
      subst h
      exact ⟨List.isPrefixOf_iff_prefix.mp hp, fun j hj => absurd hj (by omega)⟩
    · simp [hp] at h
  | cons c t ih =>
    rw [pyFind] at h
    by_cases hp : needle.isPrefixOf (c :: t)
    · rw [if_pos hp] at h
      injection h with h
      subst h
      exact ⟨List.isPrefixOf_iff_prefix.mp hp, fun j hj => absurd hj (by omega)⟩
    · rw [if_neg hp] at h
      rw [Option.map_eq_some'] at h
      obtain ⟨i', hi', rfl⟩ := h
      refine ⟨(ih hi').1, fun j hj => ?_⟩
      match j with
      | 0 =>
        simpa using fun hpre => hp (List.isPrefixOf_iff_prefix.mpr hpre)
      | j' + 1 =>
        simpa using (ih hi').2 j' (by omega)

/-- A failed `pyFind` means the needle matches at no index. -/
theorem pyFind_none {hay needle : Str} (h : pyFind hay needle = none) :
    ∀ j, ¬ needle <+: hay.drop j := by
  induction hay with
  | nil =>
    rw [pyFind] at h
    by_cases hp : needle.isPrefixOf ([] : Str)
    · simp [hp] at h
    · intro j hpre
      rw [List.drop_nil] at hpre
      exact hp (List.isPrefixOf_iff_prefix.mpr hpre)
  | cons c t ih =>
    rw [pyFind] at h
    by_cases hp : needle.isPrefixOf (c :: t)
    · simp [hp] at h
    · rw [if_neg hp, Option.map_eq_none'] at h
      intro j
      match j with
      | 0 => simpa using fun hpre => hp (List.isPrefixOf_iff_prefix.mpr hpre)
      | j' + 1 => simpa using ih h j'

/-- A needle matching at some dropped index is an infix. -/
theorem infix_of_prefix_drop {needle hay : Str} {i : Nat} (h : needle <+: hay.drop i) :
    needle <:+: hay := by
  obtain ⟨r, hr⟩ := h
  exact ⟨hay.take i, r, by rw [List.append_assoc, hr, List.take_append_drop]⟩

/-- An infix needle is found by `pyFind`. -/
theorem pyFind_some_of_found {needle hay : Str} (h : needle <:+: hay) :
    ∃ i, pyFind hay needle = some i := by
  cases e : pyFind hay needle with
  | some i => exact ⟨i, rfl⟩
  | none =>
    obtain ⟨s, t, rfl⟩ := h
    exact absurd (by
        rw [List.append_assoc, List.drop_left]
        exact List.prefix_append needle t)
      (pyFind_none e s.length)

/-- The slice of the haystack at a match equals the needle. -/
theorem take_drop_of_isPrefix {t d : Str} {i : Nat} (h : t <+: d.drop i) :
    (d.drop i).take t.length = t := (List.prefix_iff_eq_take.mp h).symm

/-- The head surviving a `dropWhile` fails the predicate. -/
theorem dropWhile_head_false {α : Type} {p : α → Bool} {l : List α} {c : α} {r : List α}
    (h : l.dropWhile p = c :: r) : p c = false := by
  induction l with
  | nil => simp at h
  | cons a t ih =>
    by_cases hp : p a
    · rw [List.dropWhile_cons_of_pos hp] at h
      exact ih h
    · rw [List.dropWhile_cons_of_neg hp] at h
      injection h with h1 _
      subst h1
      simpa using hp

/-- A nonempty stripped string starts with a non-whitespace character. -/
theorem pyStrip_head_false {s : Str} {c : Char} {r : Str} (h : pyStrip s = c :: r) :
    pyIsSpace c = false := by
  unfold pyStrip at h
  have hsuf : (s.dropWhile pyIsSpace).reverse.dropWhile pyIsSpace <:+
      (s.dropWhile pyIsSpace).reverse := List.dropWhile_suffix _
  have hpre : ((s.dropWhile pyIsSpace).reverse.dropWhile pyIsSpace).reverse <+:
      s.dropWhile pyIsSpace := by
    simpa using List.reverse_prefix.mpr hsuf
  rw [h] at hpre
  obtain ⟨w, hw⟩ := hpre
  exact dropWhile_head_false (l := s) hw.symm

/-- Stripping a string that starts with a non-whitespace character
yields a nonempty result. -/
theorem pyStrip_cons_ne_nil {c : Char} {w : Str} (hc : pyIsSpace c = false) :
    pyStrip (c :: w) ≠ [] := by
  unfold pyStrip
  rw [List.dropWhile_cons_of_neg (by simp [hc])]
  intro hnil
  rw [List.reverse_eq_nil_iff, List.dropWhile_eq_nil_iff] at hnil
  have := hnil c (by simp)
  simp [hc] at this

/-- If the trimmed fragment content is nonempty, so is the re-trimmed
50-character prefix used by the prefix-match stage. -/
theorem pyStrip_take_ne_nil {s : Str} (h : pyStrip s ≠ []) {n : Nat} (hn : 0 < n) :
    pyStrip ((pyStrip s).take n) ≠ [] := by
  cases e : pyStrip s with
  | nil => exact absurd e h
  | cons c r =>
    have hc : pyIsSpace c = false := pyStrip_head_false e
    match n, hn with
    | n' + 1, _ =>
      rw [List.take_succ_cons]
      exact pyStrip_cons_ne_nil hc

/-- Every element of a `pyJoin` is an infix of the joined string. -/
theorem infix_pyJoin {sep x : Str} : ∀ {l : List Str}, x ∈ l → x <:+: pyJoin sep l := by
  intro l
  induction l with
  | nil => simp
  | cons a t ih =>
    intro hm
    cases t with
    | nil =>
      rw [List.mem_singleton] at hm
      subst hm
      exact List.infix_refl x
    | cons b r =>
      rcases List.mem_cons.mp hm with rfl | hm'
      · exact ⟨[], sep ++ pyJoin sep (b :: r), by simp [pyJoin, List.append_assoc]⟩
      · obtain ⟨s1, s2, hs⟩ := ih hm'
        exact ⟨a ++ sep ++ s1, s2, by simp [pyJoin, ← hs, List.append_assoc]⟩

/-- Every number produced by `findall` comes from a bracketed digit
group occurring in the scanned string. -/
theorem findall_pattern {s : Str} (h : findall s ≠ []) :
    ∃ ds : Str, ds ≠ [] ∧ (∀ c ∈ ds, c.isDigit) ∧ ('[' :: (ds ++ [']'])) <:+: s := by
  induction s with
  | nil => simp [findall] at h
  | cons c t ih =>
    by_cases hc : c = '['
    · subst hc
      rw [findall] at h
      cases e1 : t.takeWhile Char.isDigit with
      | nil =>
        rw [e1] at h
        simp only at h
        obtain ⟨ds, h1, h2, h3⟩ := ih h
        exact ⟨ds, h1, h2, List.infix_cons h3⟩
      | cons d ds' =>
        cases e2 : t.dropWhile Char.isDigit with
        | nil =>
          rw [e1, e2] at h
          simp only at h
          obtain ⟨ds, h1, h2, h3⟩ := ih h
          exact ⟨ds, h1, h2, List.infix_cons h3⟩
        | cons e r =>
          rw [e1, e2] at h
          by_cases he : e = ']'
          · subst he
            refine ⟨d :: ds', by simp, fun x hx => ?_, ?_⟩
            · exact List.mem_takeWhile_imp (e1 ▸ hx)
            · refine ⟨[], r, ?_⟩
              have ht : t = (d :: ds') ++ ']' :: r := by
                rw [← e1, ← e2]
                exact (List.takeWhile_append_dropWhile _ _).symm
              simp [ht, List.append_assoc]
          · simp only [if_neg he] at h
            obtain ⟨ds, h1, h2, h3⟩ := ih h
            exact ⟨ds, h1, h2, List.infix_cons h3⟩
    · rw [findall, if_neg hc] at h
      obtain ⟨ds, h1, h2, h3⟩ := ih h
      exact ⟨ds, h1, h2, List.infix_cons h3⟩

/-- A string with no opening bracket contains no bracketed citation
pattern at all. -/
theorem no_bracket_no_pattern {s : Str} (h : '[' ∉ s) :
    ∀ ds : Str, ds ≠ [] → (∀ c ∈ ds, c.isDigit) → ¬ ('[' :: (ds ++ [']'])) <:+: s :=
  fun _ _ _ hinf => h (hinf.subset (List.mem_cons_self _ _))

/-- The citation numbers of the text-chunk loop started at index `i` are
exactly `i+1, i+2, ...`, one per document. -/
theorem buildTextChunks_nums (metas : List MetaDict) (ids : List Str) :
    ∀ (i : Nat) (docs : List Str),
      (buildTextChunks metas ids i docs).map (fun c => c.citation_num) =
        (List.range' (i + 1) docs.length).map (fun n : Nat => (n : Int)) := by
  intro i docs
  induction docs generalizing i with
  | nil => simp [buildTextChunks]
  | cons d ds ih =>
    rw [buildTextChunks, List.map_cons, ih, List.length_cons, List.range'_succ, List.map_cons]
    have hhead : (mkTextChunk metas ids i d).citation_num = ((i + 1 : Nat) : Int) := by
      simp only [mkTextChunk]
      omega
    rw [hhead]

/-- The citation numbers of the image-chunk loop started at index `i`
with `n` text chunks already numbered are `n+i+1, n+i+2, ...`. -/
theorem buildImageChunks_nums (ids : List Str) (n : Nat) :
    ∀ (i : Nat) (metas : List MetaDict),
      (buildImageChunks ids n i metas).map (fun c => c.citation_num) =
        (List.range' (n + i + 1) metas.length).map (fun m : Nat => (m : Int)) := by
  intro i metas
  induction metas generalizing i with
  | nil => simp [buildImageChunks]
  | cons m ms ih =>
    rw [buildImageChunks, List.map_cons, ih, List.length_cons, List.range'_succ, List.map_cons]
    have harg : n + (i + 1) + 1 = n + i + 1 + 1 := by omega
    rw [harg]
    have hhead : (mkImageChunk ids n i m).citation_num = ((n + i + 1 : Nat) : Int) := by
      simp only [mkImageChunk]
      omega
    rw [hhead]

/-- The text-chunk loop produces one chunk per document. -/
theorem buildTextChunks_length (metas : List MetaDict) (ids : List Str) (i : Nat)
    (docs : List Str) : (buildTextChunks metas ids i docs).length = docs.length := by
  induction docs generalizing i with
  | nil => rfl
  | cons d ds ih => simp [buildTextChunks, ih]

/-- The image-chunk loop produces one chunk per metadata entry. -/
theorem buildImageChunks_length (ids : List Str) (n i : Nat) (metas : List MetaDict) :
    (buildImageChunks ids n i metas).length = metas.length := by
  induction metas generalizing i with
  | nil => rfl
  | cons m ms ih => simp [buildImageChunks, ih]

/-- The mapping `find_chunk_position` returns is for the chunk it was given. -/
theorem find_chunk_position_stored (doc : Str) (c : SChunk) :
    (find_chunk_position doc c).stored_chunk = c := by
  unfold find_chunk_position
  cases e1 : pyFind doc (pyStrip c.content) with
  | some i => simp [e1]
  | none =>
    cases e2 : fuzzyMatch doc (pyStrip c.content) with
    | some ab => cases ab; simp [e1, e2]
    | none =>
      cases e3 : prefixMatch doc (pyStrip c.content) with
      | some ab => cases ab; simp [e1, e2, e3]
      | none => simp [e1, e2, e3]

/-- Every chunk segment emitted by the walk carries the full slice of
its own recorded span as content. -/
theorem buildSegments_chunk_content (doc : Str) :
    ∀ (ms : List ChunkMapping) (i : Nat) (le : Int) (s : Segment),
      s ∈ buildSegments doc ms i le →
      ∀ c a b j id ty p sc, s = Segment.chunk c a b j id ty p sc → c = islice doc a b := by
  intro ms
  induction ms with
  | nil =>
    intro i le s hs c a b j id ty p sc heq
    rw [buildSegments] at hs
    split at hs
    · rw [List.mem_singleton] at hs
      subst hs
      cases heq
    · simp at hs
  | cons m rest ih =>
    intro i le s hs c a b j id ty p sc heq
    rw [buildSegments] at hs
    rcases List.mem_append.mp hs with hpre | hrest
    · split at hpre
      · rw [List.mem_singleton] at hpre
        subst hpre
        cases heq
      · simp at hpre
    · rcases List.mem_cons.mp hrest with rfl | hrec
      · injection heq with e1 e2 e3
        subst e1; subst e2; subst e3
        rfl
      · exact ih (i + 1) m.end_pos s hrec c a b j id ty p sc heq

/-- The empty needle is found at position 0 (Python `find` semantics). -/
theorem pyFind_nil_needle (hay : Str) : pyFind hay [] = some 0 := by
  cases hay <;> rw [pyFind] <;> rfl

/-- C4: for every fragment whose trimmed content occurs verbatim in the
document, `_find_chunk_position` returns score 1.0 with start the
earliest occurrence index, end `start + len(trimmed)`, and the document
slice over the span equals the trimmed content. -/
theorem locate_exact_match (doc : Str) (chunk : SChunk)
    (h : pyStrip chunk.content <:+: doc) :
    ∃ i : Nat,
      find_chunk_position doc chunk =
        ⟨chunk, (i : Int), (i : Int) + (pyStrip chunk.content).length, 1⟩ ∧
      pyStrip chunk.content <+: doc.drop i ∧
      (∀ j, j < i → ¬ pyStrip chunk.content <+: doc.drop j) ∧
      islice doc (i : Int) ((i : Int) + (pyStrip chunk.content).length) =
        pyStrip chunk.content := by
  obtain ⟨i, e⟩ := pyFind_some_of_found h
  obtain ⟨h1, h2⟩ := pyFind_spec e
  refine ⟨i, ?_, h1, h2, ?_⟩
  · unfold find_chunk_position
    simp [e]
  · have ha : ((i : Int)).toNat = i := by omega
    have hb : ((i : Int) + ((pyStrip chunk.content).length : Int)).toNat =
        i + (pyStrip chunk.content).length := by omega
    simp only [islice, ha, hb]
    have hsub : i + (pyStrip chunk.content).length - i = (pyStrip chunk.content).length := by
      omega
    rw [hsub]
    exact take_drop_of_isPrefix h1

/-- Witness for C4: the scenario given in the specification — fragment
`The sky is blue.` inside `Intro.\nThe sky is blue.\nMore text.` is an
exact match at `[7, 23)` with score 1.0. -/
theorem locate_exact_match_witness :
    (pyStrip c4chunk.content <:+: c4doc) ∧
    (∃ i : Nat,
      find_chunk_position c4doc c4chunk =
        ⟨c4chunk, (i : Int), (i : Int) + (pyStrip c4chunk.content).length, 1⟩ ∧
      pyStrip c4chunk.content <+: c4doc.drop i ∧
      (∀ j, j < i → ¬ pyStrip c4chunk.content <+: c4doc.drop j) ∧
      islice c4doc (i : Int) ((i : Int) + (pyStrip c4chunk.content).length) =
        pyStrip c4chunk.content) ∧
    find_chunk_position c4doc c4chunk = ⟨c4chunk, 7, 23, 1⟩ :=
  ⟨by decide, locate_exact_match c4doc c4chunk (by decide), by decide⟩

/-- C10: a text fragment whose content strips to the empty string is an
exact match with score 1.0 and span `[0, 0)`, never the unmapped
sentinel. -/
theorem locate_whitespace_content (doc : Str) (chunk : SChunk)
    (h : pyStrip chunk.content = []) :
    find_chunk_position doc chunk = ⟨chunk, 0, 0, 1⟩ := by
  unfold find_chunk_position
  simp [h, pyFind_nil_needle]

/-- Witness for C10: the whitespace-only chunk against document `hello`. -/
theorem locate_whitespace_content_witness :
    (pyStrip wsChunk.content = []) ∧
    find_chunk_position (str ("hello")) wsChunk = ⟨wsChunk, 0, 0, 1⟩ :=
  ⟨by decide, locate_whitespace_content (str ("hello")) wsChunk (by decide)⟩

/-- C9: every mapping that `map_chunks_to_document` produces for a chunk
whose declared type is not `text` is the matched-but-unpositioned
sentinel: score 1.0, start = end = -1 (the span locator is bypassed). -/
theorem nontext_sentinel (doc : Str) (chunks : List SChunk) (m : ChunkMapping)
    (hm : m ∈ map_chunks_to_document doc chunks)
    (ht : m.stored_chunk.chunk_type ≠ str ("text")) :
    m.start_pos = -1 ∧ m.end_pos = -1 ∧ m.match_score = 1 := by
  unfold map_chunks_to_document at hm
  split at hm
  · simp at hm
  · obtain ⟨c, hc, rfl⟩ := List.mem_map.mp hm
    by_cases htype : c.chunk_type = str ("text")
    · rw [if_pos htype, find_chunk_position_stored] at ht
      exact absurd htype ht
    · rw [if_neg htype]
      exact ⟨rfl, rfl, rfl⟩

/-- Witness for C9: an image chunk in a one-chunk list over document
`A` receives the sentinel mapping. -/
theorem nontext_sentinel_witness :
    (nontextMapping imgSChunk ∈ map_chunks_to_document (str ("A")) [imgSChunk]) ∧
    ((nontextMapping imgSChunk).stored_chunk.chunk_type ≠ str ("text")) ∧
    ((nontextMapping imgSChunk).start_pos = -1 ∧ (nontextMapping imgSChunk).end_pos = -1 ∧
      (nontextMapping imgSChunk).match_score = 1) :=
  ⟨by decide, by decide,
    nontext_sentinel (str ("A")) [imgSChunk] (nontextMapping imgSChunk) (by decide) (by decide)⟩

/-- C3: the citation-number loops of `get_knowledge` number the N text
fragments `1..N` in input order and the M non-text fragments `N+1..N+M`
in input order — together exactly the range `1..N+M`, with no gaps or
repeats, and every text fragment strictly below every non-text one. -/
theorem citation_numbers (tdocs : List Str) (tmetas : List MetaDict) (tids : List Str)
    (imetas : List MetaDict) (iids : List Str) :
    (buildTextChunks tmetas tids 0 tdocs).map (fun c => c.citation_num) ++
      (buildImageChunks iids (buildTextChunks tmetas tids 0 tdocs).length 0 imetas).map
        (fun c => c.citation_num) =
      (List.range' 1 ((buildTextChunks tmetas tids 0 tdocs).length +
        (buildImageChunks iids (buildTextChunks tmetas tids 0 tdocs).length 0
          imetas).length)).map (fun n : Nat => (n : Int)) ∧
    ((buildTextChunks tmetas tids 0 tdocs).map (fun c => c.citation_num) ++
      (buildImageChunks iids (buildTextChunks tmetas tids 0 tdocs).length 0 imetas).map
        (fun c => c.citation_num)).Nodup ∧
    ∀ a ∈ buildTextChunks tmetas tids 0 tdocs,
      ∀ b ∈ buildImageChunks iids (buildTextChunks tmetas tids 0 tdocs).length 0 imetas,
        a.citation_num < b.citation_num := by
  have hN := buildTextChunks_length tmetas tids 0 tdocs
  have hM := buildImageChunks_length iids (buildTextChunks tmetas tids 0 tdocs).length 0 imetas
  have hmain :
      (buildTextChunks tmetas tids 0 tdocs).map (fun c => c.citation_num) ++
        (buildImageChunks iids (buildTextChunks tmetas tids 0 tdocs).length 0 imetas).map
          (fun c => c.citation_num) =
        (List.range' 1 ((buildTextChunks tmetas tids 0 tdocs).length +
          (buildImageChunks iids (buildTextChunks tmetas tids 0 tdocs).length 0
            imetas).length)).map (fun n : Nat => (n : Int)) := by
    rw [buildTextChunks_nums, buildImageChunks_nums, ← List.map_append, hM, hN]
    congr 1
    have := List.range'_append_1 1 tdocs.length imetas.length
    have harg1 : (0 : Nat) + 1 = 1 := by omega
    have harg2 : tdocs.length + 0 + 1 = 1 + tdocs.length := by omega
    have harg3 : imetas.length + tdocs.length = tdocs.length + imetas.length := by omega
    rw [harg1, harg2, this, harg3]
  refine ⟨hmain, ?_, ?_⟩
  · rw [hmain]
    exact List.Nodup.map Nat.cast_injective (List.nodup_range' _ _)
  · intro a ha b hb
    have hav : a.citation_num ∈
        (buildTextChunks tmetas tids 0 tdocs).map (fun c => c.citation_num) :=
      List.mem_map.mpr ⟨a, ha, rfl⟩
    have hbv : b.citation_num ∈
        (buildImageChunks iids (buildTextChunks tmetas tids 0 tdocs).length 0 imetas).map
          (fun c => c.citation_num) :=
      List.mem_map.mpr ⟨b, hb, rfl⟩
    rw [buildTextChunks_nums] at hav
    rw [buildImageChunks_nums] at hbv
    obtain ⟨k, hk, hka⟩ := List.mem_map.mp hav
    obtain ⟨l, hl, hlb⟩ := List.mem_map.mp hbv
    rw [List.mem_range'_1] at hk hl
    rw [hN] at hl
    omega

/-- Witness for C3: one text document and one image metadata entry get
citation numbers 1 and 2. -/
theorem citation_numbers_witness :
    (mkTextChunk [] [] 0 (str ("a")) ∈ buildTextChunks [] [] 0 [str ("a")]) ∧
    (mkImageChunk [] 1 0 ⟨none, none, none⟩ ∈ buildImageChunks [] 1 0 [⟨none, none, none⟩]) ∧
    (mkTextChunk [] [] 0 (str ("a"))).citation_num <
      (mkImageChunk [] 1 0 ⟨none, none, none⟩).citation_num :=
  ⟨by decide, by decide,
    (citation_numbers [str ("a")] [] [] [⟨none, none, none⟩] []).2.2 _ (by decide) _ (by decide)⟩

/-- C2: the extractor returns a permutation of one record per fragment
whose citation number was cited (text first, then non-text; uncited and
hallucinated numbers dropped), sorted ascending by `num`; on the
response `[1] [1] [3]` against fragments numbered 1, 2, 3 it returns
exactly the records numbered 1 and 3, in that order. -/
theorem extract_citations_spec (response : Str) (txt : List TextChunk) (img : List ImageChunk) :
    (extract_citations_from_response response txt img).Perm
      ((txt.filter fun c => (findall response).contains c.citation_num).map textRecord ++
        (img.filter fun c => (findall response).contains c.citation_num).map imageRecord) ∧
    (extract_citations_from_response response txt img).Pairwise (fun a b => a.num ≤ b.num) ∧
    (extract_citations_from_response (str ("uses [1] and [1] and [3]."))
      [tchunk1, tchunk2, tchunk3] []).map (fun r => r.num) = [1, 3] := by
  haveI ht : IsTotal CitationRecord (fun a b => a.num ≤ b.num) := ⟨fun a b => le_total _ _⟩
  haveI htr : IsTrans CitationRecord (fun a b => a.num ≤ b.num) := ⟨fun a b c => le_trans⟩
  exact ⟨List.perm_insertionSort _ _, List.sorted_insertionSort _ _, by decide⟩

/-- C8: a response containing no bracketed-integer pattern at all yields
an empty citation list (a value, not an error), for any fragment lists. -/
theorem extract_citations_empty (response : Str) (txt : List TextChunk)
    (img : List ImageChunk)
    (h : ∀ ds : Str, ds ≠ [] → (∀ c ∈ ds, c.isDigit) → ¬ ('[' :: (ds ++ [']'])) <:+: response) :
    extract_citations_from_response response txt img = [] := by
  have hf : findall response = [] := by
    by_contra hne
    obtain ⟨ds, h1, h2, h3⟩ := findall_pattern hne
    exact h ds h1 h2 h3
  unfold extract_citations_from_response
  rw [hf]
  simp

/-- Witness for C8: a bracket-free response with a fragment present. -/
theorem extract_citations_empty_witness :
    extract_citations_from_response (str ("no citations here")) [tchunk1] [] = [] :=
  extract_citations_empty _ _ _ (no_bracket_no_pattern (by decide))

/-- C5 counterexample: for an image chunk numbered 1 the reference block
is `[Source 1: unknown, page ?]…`, which does not contain the bare
marker `[1]` anywhere. -/
theorem image_marker_counterexample :
    ¬ (str ("[1]") <:+: create_citation_context [] [ichunk1]) := by decide

/-- C5 (amended): the composed prompt always contains the literal
question; the reference block contains the bare marker `[n]` for every
text fragment, while the number of each non-text fragment appears only in the
`[Source n: …]` form. -/
theorem prompt_contains_question_and_markers (question : Str) (txt : List TextChunk)
    (img : List ImageChunk) :
    question <:+: (build_prompt_with_citations question txt img).1 ∧
    (∀ c ∈ txt,
      (str ("[") ++ intStr c.citation_num ++ str ("]")) <:+:
        (build_prompt_with_citations question txt img).2) ∧
    (∀ c ∈ img,
      (str ("[Source ") ++ intStr c.citation_num ++ str (":")) <:+:
        (build_prompt_with_citations question txt img).2) := by
  refine ⟨?_, ?_, ?_⟩
  · exact ⟨promptPre ++ create_citation_context txt img ++ promptMid, promptPost, by
      simp [build_prompt_with_citations, List.append_assoc]⟩
  · intro c hc
    have hpart : textPart c ∈ txt.map textPart ++ img.map imagePart :=
      List.mem_append_left _ (List.mem_map.mpr ⟨c, hc, rfl⟩)
    refine List.IsInfix.trans (List.IsPrefix.isInfix ?_) (infix_pyJoin hpart)
    refine ⟨str (" (from ") ++ metaFilename c.metadata ++ str (", page ") ++
      pageStr c.metadata.page_idx ++ str ("):\n") ++ c.content, ?_⟩
    have hsplit : str ("] (from ") = str ("]") ++ str (" (from ") := by decide
    unfold textPart
    rw [hsplit]
    simp [List.append_assoc]
  · intro c hc
    have hpart : imagePart c ∈ txt.map textPart ++ img.map imagePart :=
      List.mem_append_right _ (List.mem_map.mpr ⟨c, hc, rfl⟩)
    refine List.IsInfix.trans (List.IsPrefix.isInfix ?_) (infix_pyJoin hpart)
    refine ⟨str (" ") ++ metaFilename c.metadata ++ str (", page ") ++
      pageStr c.metadata.page_idx ++ str ("]\n") ++
      pyCapitalize (c.metadata.mtype.getD (str ("image"))) ++ str (" available for reference."), ?_⟩
    have hsplit : str (": ") = str (":") ++ str (" ") := by decide
    unfold imagePart
    rw [hsplit]
    simp [List.append_assoc]

/-- Witness for C5 (amended): question `q`, one text fragment numbered 1
and one image fragment numbered 4. -/
theorem prompt_contains_question_and_markers_witness :
    (tchunk1 ∈ [tchunk1]) ∧ (ichunk4 ∈ [ichunk4]) ∧
    (str ("q") <:+: (build_prompt_with_citations (str ("q")) [tchunk1] [ichunk4]).1) ∧
    ((str ("[") ++ intStr tchunk1.citation_num ++ str ("]")) <:+:
      (build_prompt_with_citations (str ("q")) [tchunk1] [ichunk4]).2) ∧
    ((str ("[Source ") ++ intStr ichunk4.citation_num ++ str (":")) <:+:
      (build_prompt_with_citations (str ("q")) [tchunk1] [ichunk4]).2) :=
  ⟨by decide, by decide,
    (prompt_contains_question_and_markers (str ("q")) [tchunk1] [ichunk4]).1,
    (prompt_contains_question_and_markers (str ("q")) [tchunk1] [ichunk4]).2.1 tchunk1 (by decide),
    (prompt_contains_question_and_markers (str ("q")) [tchunk1] [ichunk4]).2.2 ichunk4 (by decide)⟩

/-- C6 counterexample: a 501-character fragment content appears in full
inside the reference block — nothing caps it at 500 characters. -/
theorem full_content_counterexample :
    longChunk.content.length = 501 ∧ 500 < longChunk.content.length ∧
    longChunk.content <:+: create_citation_context [longChunk] [] := by
  refine ⟨?_, ?_, ?_⟩
  · show (List.replicate 501 'a').length = 501
    rw [List.length_replicate]
  · show 500 < (List.replicate 501 'a').length
    rw [List.length_replicate]
    omega
  have h1 : create_citation_context [longChunk] [] = textPart longChunk := rfl
  rw [h1]
  unfold textPart
  exact List.IsSuffix.isInfix (List.suffix_append _ _)

/-- C6 (amended): the reference block always embeds every text
full, unbounded content of every text fragment. -/
theorem full_content_in_context (txt : List TextChunk) (img : List ImageChunk) :
    ∀ c ∈ txt, c.content <:+: create_citation_context txt img := by
  intro c hc
  have hpart : textPart c ∈ txt.map textPart ++ img.map imagePart :=
    List.mem_append_left _ (List.mem_map.mpr ⟨c, hc, rfl⟩)
  refine List.IsInfix.trans ?_ (infix_pyJoin hpart)
  unfold textPart
  exact List.IsSuffix.isInfix (List.suffix_append _ _)

/-- Witness for C6 (amended). -/
theorem full_content_in_context_witness :
    (tchunk2 ∈ [tchunk2]) ∧ tchunk2.content <:+: create_citation_context [tchunk2] [] :=
  ⟨by decide, full_content_in_context [tchunk2] [] tchunk2 (by decide)⟩

set_option maxRecDepth 8000 in
/-- C7 counterexample: for the fragment whose trimmed content is 49 `a`s,
a space, five `b`s, the first 50 trimmed characters (`a`*49 + space)
occur in `c7doc` earliest at index 51, yet the prefix stage strips the
needle again and starts the span at index 1 instead. -/
theorem prefix_needle_counterexample :
    pyFind c7doc ((pyStrip c7chunk.content).take 50) = some 51 ∧
    (find_chunk_position c7doc c7chunk).match_score = mkRat 6 10 ∧
    (find_chunk_position c7doc c7chunk).start_pos = 1 ∧ (1 : Int) ≠ 51 := by decide

/-- C7 (amended): when the exact and bracketing stages fail and the
trimmed content is non-empty, the prefix stage searches for the
re-stripped first 50 characters of the trimmed content; on success the
span starts at the earliest occurrence of that re-stripped needle and
ends at `start + len(trimmed content)` clamped to the document length,
with score 0.6. -/
theorem locate_prefix_match (doc : Str) (chunk : SChunk) (p : Nat)
    (h0 : pyStrip chunk.content ≠ [])
    (h1 : pyFind doc (pyStrip chunk.content) = none)
    (h2 : fuzzyMatch doc (pyStrip chunk.content) = none)
    (h3 : pyFind doc (pyStrip ((pyStrip chunk.content).take 50)) = some p) :
    find_chunk_position doc chunk =
      ⟨chunk, (p : Int),
        ((min (p + (pyStrip chunk.content).length) doc.length : Nat) : Int), mkRat 6 10⟩ ∧
    pyStrip ((pyStrip chunk.content).take 50) <+: doc.drop p ∧
    ∀ j, j < p → ¬ pyStrip ((pyStrip chunk.content).take 50) <+: doc.drop j := by
  have hne : pyStrip ((pyStrip chunk.content).take 50) ≠ [] :=
    pyStrip_take_ne_nil h0 (by omega)
  have hpm : prefixMatch doc (pyStrip chunk.content) =
      some (p, min (p + (pyStrip chunk.content).length) doc.length) := by
    unfold prefixMatch
    simp only []
    rw [if_neg hne, h3]
  have hspec := pyFind_spec h3
  refine ⟨?_, hspec.1, hspec.2⟩
  unfold find_chunk_position
  simp [h1, h2, hpm]

/-- Witness for C7 (amended): a fragment of 60 `X`s over a document of
50 `X`s — the prefix stage matches at index 0 and clamps the end to 50. -/
theorem locate_prefix_match_witness :
    (pyStrip c7wchunk.content ≠ []) ∧
    (pyFind c7wdoc (pyStrip c7wchunk.content) = none) ∧
    (fuzzyMatch c7wdoc (pyStrip c7wchunk.content) = none) ∧
    (pyFind c7wdoc (pyStrip ((pyStrip c7wchunk.content).take 50)) = some 0) ∧
    (find_chunk_position c7wdoc c7wchunk =
      ⟨c7wchunk, ((0 : Nat) : Int),
        ((min (0 + (pyStrip c7wchunk.content).length) c7wdoc.length : Nat) : Int), mkRat 6 10⟩ ∧
    pyStrip ((pyStrip c7wchunk.content).take 50) <+: c7wdoc.drop 0 ∧
    ∀ j, j < 0 → ¬ pyStrip ((pyStrip c7wchunk.content).take 50) <+: c7wdoc.drop j) :=
  ⟨by decide, by decide, by decide, by decide,
    locate_prefix_match c7wdoc c7wchunk 0 (by decide) (by decide) (by decide) (by decide)⟩

/-- C1 counterexample: on document `ABCDEFGHIJ` with valid spans `[2,5)`
and `[4,7)` (both score 1.0) the rendered segments are not the three
claimed segments `AB`, `CDE`, `FG`. -/
theorem highlight_overlap_counterexample :
    ¬ ((get_highlighted_document docC1 [mapA, mapB]).map segContent =
        [str ("AB"), str ("CDE"), str ("FG")]) := by decide

/-- C1 (amended): every chunk segment emitted by
`get_highlighted_document` renders the full slice of its own span
`[own_start, own_end)` — the walk never clamps an overlapping span to
the previous end — and on document `ABCDEFGHIJ` with spans `[2,5)` and
`[4,7)` the output is the four segments plain `AB`, chunk `CDE`, chunk
`EFG` (the overlap `E` rendered twice), plain `HIJ`. -/
theorem highlight_renders_full_spans :
    (∀ (doc : Str) (mappings : List ChunkMapping) (s : Segment),
      s ∈ get_highlighted_document doc mappings →
      ∀ c a b j id ty p sc, s = Segment.chunk c a b j id ty p sc → c = islice doc a b) ∧
    get_highlighted_document docC1 [mapA, mapB] =
      [Segment.text (str ("AB")) 0 2,
        Segment.chunk (str ("CDE")) 2 5 0 (str ("c1")) (str ("text")) 1 1,
        Segment.chunk (str ("EFG")) 4 7 1 (str ("c2")) (str ("text")) 1 1,
        Segment.text (str ("HIJ")) 7 10] := by
  refine ⟨?_, by decide⟩
  intro doc mappings s hs c a b j id ty p sc heq
  unfold get_highlighted_document at hs
  split at hs
  · simp at hs
  · exact buildSegments_chunk_content doc _ 0 0 s hs c a b j id ty p sc heq

/-- Witness for C1 (amended): the second chunk segment of the example is
in the output and its content is the full slice `doc[4:7] = EFG`. -/
theorem highlight_renders_full_spans_witness :
    (Segment.chunk (str ("EFG")) 4 7 1 (str ("c2")) (str ("text")) 1 1 ∈
      get_highlighted_document docC1 [mapA, mapB]) ∧
    str ("EFG") = islice docC1 4 7 :=
  ⟨by decide,
    (highlight_renders_full_spans).1 docC1 [mapA, mapB]
      (Segment.chunk (str ("EFG")) 4 7 1 (str ("c2")) (str ("text")) 1 1) (by decide)
      (str ("EFG")) 4 7 1 (str ("c2")) (str ("text")) 1 1 rfl⟩
